import Mathlib

/-!
Shallow embedding of `src/script/systemm_monitor.py` (class `SystemHealthMonitor`).

Numbers: Python floats are modelled as `Rat`; every numeric value the claims
exercise is a short decimal, exact in both the binary double and in `Rat`, and
all comparisons in the program are order comparisons, which `Rat` models
faithfully for such values.  Python ints are modelled as `Int`/`Nat`.  Since
`str()` renders ints and floats differently (`str(300) = "300"`,
`str(80.0) = "80.0"`), threshold values carry their Python runtime type in
`PyNum`.

Effects (logging, printing) are modelled as an explicit event list `Effect`.
The wall clock read by `datetime.now()` is modelled as an explicit `String`
argument (the already-formatted timestamp).
-/

/-- Python runtime numeric value: `int` or `float`.  JSON numbers load as one
or the other, and the default thresholds mix both (`80.0` is a float,
`300` an int). -/
inductive PyNum where
  | int (i : Int)
  | float (q : Rat)
deriving DecidableEq, Repr

/-- Numeric value of a `PyNum`, used for Python's `>` comparison between
ints and floats. -/
def PyNum.toRat : PyNum → Rat
  | .int i => (i : Rat)
  | .float q => q

/-- Decimal digits of a rational `r` with `0 ≤ r < 1`, at most `fuel` digits
(Python's `str` of a float never needs more than 17).  Models the fractional
part of `str(float)` for values with a terminating short decimal expansion,
the only values this program formats. -/
def fracDigits : Nat → Rat → List Char
  | 0, _ => []
  | n + 1, r =>
    if r = 0 then []
    else
      let d := (r * 10).floor
      Char.ofNat (48 + d.toNat) :: fracDigits n (r * 10 - (d : Rat))

/-- Models Python `str()` of a nonnegative float with terminating decimal
expansion: `str(80.0) = "80.0"`, `str(12.34) = "12.34"`. -/
def pyFloatStr (x : Rat) : String :=
  let ip := x.floor
  let fr := x - (ip : Rat)
  if fr = 0 then toString ip ++ ".0"
  else toString ip ++ "." ++ String.mk (fracDigits 17 fr)

/-- Python `str()` of a `PyNum`: ints without a decimal point, floats with. -/
def PyNum.str : PyNum → String
  | .int i => toString i
  | .float q => pyFloatStr q

/-- Models the Python format spec `:.1f` for a nonnegative value: one decimal
digit, rounding to nearest (Python rounds the underlying double half-even;
no value this program meets sits on a tie, so `floor (10x + 1/2)` agrees). -/
def fmt1 (x : Rat) : String :=
  let n := (10 * x + 1 / 2).floor
  toString (n / 10) ++ "." ++ toString (n % 10)

/-- Python dict lookup `d.get(k)` on a string-keyed dict represented as an
association list in insertion order (keys unique in every dict the program
builds, so first match is the match). -/
def dlookup (d : List (String × PyNum)) (k : String) : Option PyNum :=
  (d.find? (fun p => p.1 == k)).map (fun p => p.2)

/-- Python subscript `d[k]`.  In the program the four threshold keys are
always present after `__init__` (the defaults are never removed), so the
`KeyError` case is unreachable; it is modelled by an arbitrary value. -/
def dget (d : List (String × PyNum)) (k : String) : PyNum :=
  (dlookup d k).getD (PyNum.int 0)

/-- Python `dict.update`: existing keys take the overlay's value in place,
new keys are appended in overlay order. -/
def dictUpdate (base ov : List (String × PyNum)) : List (String × PyNum) :=
  base.map (fun p => match dlookup ov p.1 with
    | some v => (p.1, v)
    | none => p)
    ++ ov.filter (fun p => dlookup base p.1 = none)

/-- `self.thresholds` defaults from `SystemHealthMonitor.__init__`
(lines 20-25): floats for the three percentages, int for `max_processes`. -/
def defaultThresholds : List (String × PyNum) :=
  [("cpu_percent", .float 80),
   ("memory_percent", .float 85),
   ("disk_percent", .float 90),
   ("max_processes", .int 300)]

/-- The optional configuration file: `none` when the file does not exist;
otherwise the parsed JSON object, whose optional `thresholds` member is a
string-to-number object. -/
structure MonitorConfig where
  thresholds : Option (List (String × PyNum))
deriving Repr

/-- Threshold loading in `SystemHealthMonitor.__init__` (lines 20-31):
start from the defaults; if the config file exists, overlay
`config.get('thresholds', {})` via `dict.update`. -/
def initThresholds : Option MonitorConfig → List (String × PyNum)
  | none => defaultThresholds
  | some c => dictUpdate defaultThresholds (c.thresholds.getD [])

/-- `get_memory_usage` result: percent plus used/total/available in GB. -/
structure MemoryInfo where
  percent : Rat
  used : Rat
  total : Rat
  available : Rat
deriving DecidableEq, Repr

/-- One value of the `get_disk_usage` map. -/
structure DiskInfo where
  percent : Rat
  used : Rat
  total : Rat
  free : Rat
deriving DecidableEq, Repr

/-- One element of `proc.info` in `get_top_processes`: `cpu_percent` and
`memory_percent` may be `None`. -/
structure ProcInfo where
  pid : Int
  name : String
  cpu_percent : Option Rat
  memory_percent : Option Rat
deriving DecidableEq, Repr

/-- The `metrics` dict built by `monitor_once` (lines 145-151): one snapshot.
The disk map is an association list in mount iteration order (Python dicts
preserve insertion order). -/
structure Metrics where
  cpu_percent : Rat
  memory : MemoryInfo
  disk : List (String × DiskInfo)
  process_count : Nat
  top_processes : List ProcInfo
deriving DecidableEq, Repr

/-- CPU alert message (line 105). -/
def cpuAlertMsg (th : List (String × PyNum)) (m : Metrics) : String :=
  "High CPU usage: " ++ fmt1 m.cpu_percent ++ "% (threshold: "
    ++ (dget th "cpu_percent").str ++ "%)"

/-- Memory alert message (line 109). -/
def memAlertMsg (th : List (String × PyNum)) (m : Metrics) : String :=
  "High memory usage: " ++ fmt1 m.memory.percent ++ "% (threshold: "
    ++ (dget th "memory_percent").str ++ "%)"

/-- Disk alert message for one mount (line 114). -/
def diskAlertMsg (th : List (String × PyNum)) (p : String × DiskInfo) : String :=
  "High disk usage on " ++ p.1 ++ ": " ++ fmt1 p.2.percent ++ "% (threshold: "
    ++ (dget th "disk_percent").str ++ "%)"

/-- Process-count alert message (line 118). -/
def procAlertMsg (th : List (String × PyNum)) (m : Metrics) : String :=
  "High process count: " ++ toString m.process_count ++ " (threshold: "
    ++ (dget th "max_processes").str ++ ")"

/-- `check_thresholds` (lines 99-120): sequentially append the CPU alert,
the memory alert, one alert per breaching disk mount in map order, and the
process-count alert; each fires iff the metric strictly exceeds its
threshold. -/
def check_thresholds (th : List (String × PyNum)) (m : Metrics) : List String :=
  let alerts : List String := []
  let alerts := if m.cpu_percent > (dget th "cpu_percent").toRat
    then alerts ++ [cpuAlertMsg th m] else alerts
  let alerts := if m.memory.percent > (dget th "memory_percent").toRat
    then alerts ++ [memAlertMsg th m] else alerts
  let alerts := m.disk.foldl (fun alerts p =>
    if p.2.percent > (dget th "disk_percent").toRat
    then alerts ++ [diskAlertMsg th p] else alerts) alerts
  let alerts := if (m.process_count : Rat) > (dget th "max_processes").toRat
    then alerts ++ [procAlertMsg th m] else alerts
  alerts

/-- `bytes_to_gb` (lines 89-91): `round(bytes / 1024**3, 2)`.  Python's
`round` on doubles is half-even; no byte count this development evaluates
sits on a tie, so floor-of-shifted agrees. -/
def bytes_to_gb (b : Rat) : Rat :=
  ((100 * (b / 1024 ^ 3) + 1 / 2).floor : Rat) / 100

/-- Result of `psutil.disk_usage` for one partition, in bytes. -/
structure Usage where
  used : Nat
  total : Nat
  free : Nat
deriving DecidableEq, Repr

/-- One element of `psutil.disk_partitions()`: its mount point, and the
usage reading; `none` models `psutil.disk_usage` raising `PermissionError`. -/
structure Partition where
  mountpoint : String
  usage : Option Usage
deriving DecidableEq, Repr

/-- `get_disk_usage` (lines 58-72): iterate the partitions; a readable mount
contributes `percent = used / total * 100` plus GB figures; a mount whose
usage read raises `PermissionError` is skipped by `continue`.  psutil mount
points are unique per enumeration, so dict insertion is modelled as
appending a fresh key. -/
def get_disk_usage (parts : List Partition) : List (String × DiskInfo) :=
  parts.foldl (fun disk_info p =>
    match p.usage with
    | some u =>
      disk_info ++ [(p.mountpoint,
        { percent := ((u.used : Rat) / (u.total : Rat)) * 100
          used := bytes_to_gb (u.used : Rat)
          total := bytes_to_gb (u.total : Rat)
          free := bytes_to_gb (u.free : Rat) })]
    | none => disk_info) []

/-- The sort key of `get_top_processes`: `x['cpu_percent'] or 0` — an absent
(`None`) reading counts as 0 (and `0.0 or 0` is numerically 0 as well). -/
def procKey (p : ProcInfo) : Rat :=
  p.cpu_percent.getD 0

/-- Comparator realising `sorted(..., key=lambda x: x['cpu_percent'] or 0,
reverse=True)`: `a` may precede `b` iff `a`'s key is at least `b`'s. -/
def topSortLe (a b : ProcInfo) : Bool :=
  decide (procKey b ≤ procKey a)

/-- `get_top_processes` (lines 78-87): collect the readable entries of the
process iterator (`none` models `NoSuchProcess`/`AccessDenied` raised while
reading one entry, skipped by `continue`), then
`sorted(..., key=..., reverse=True)[:limit]`.  CPython's sort is stable and
`reverse=True` preserves the original order of equal keys while sorting
descending; stable `mergeSort` with `topSortLe` has exactly that
behaviour. -/
def get_top_processes (procIter : List (Option ProcInfo)) (limit : Nat) : List ProcInfo :=
  let processes := procIter.foldl (fun ps po =>
    match po with
    | some p => ps ++ [p]
    | none => ps) []
  (processes.mergeSort topSortLe).take limit

/-- An observable side effect of the program: a log record at warning or
info level, or console output. -/
inductive Effect where
  | warnLog (msg : String)
  | infoLog (msg : String)
  | consoleOut (msg : String)
deriving DecidableEq, Repr

/-- Python `print(s)`: console output of `s` plus a newline. -/
def pyPrint (s : String) : Effect :=
  .consoleOut (s ++ "\n")

/-- `send_alert` (lines 93-97): format the alert line, log it at warning
level, and print it framed by blank lines — both unconditionally. -/
def send_alert (alert_type message : String) : List Effect :=
  let alert_msg := "🚨 ALERT [" ++ alert_type ++ "]: " ++ message
  [.warnLog alert_msg, pyPrint ("\n" ++ alert_msg ++ "\n")]

/-- Disk line of the report (line 134). -/
def diskReportLine (p : String × DiskInfo) : String :=
  "\n  " ++ p.1 ++ ": " ++ fmt1 p.2.percent ++ "% (" ++ pyFloatStr p.2.used
    ++ " GB / " ++ pyFloatStr p.2.total ++ " GB)"

/-- Top-process line of the report (line 139), with `or 0` for absent
readings. -/
def procReportLine (p : ProcInfo) : String :=
  "\n  PID " ++ toString p.pid ++ ": " ++ p.name ++ " - CPU: "
    ++ fmt1 (p.cpu_percent.getD 0) ++ "%, Memory: "
    ++ fmt1 (p.memory_percent.getD 0) ++ "%"

/-- `generate_report` (lines 122-141).  The source interpolates
`datetime.now().strftime('%Y-%m-%d %H:%M:%S')` — a wall-clock read at
formatting time, modelled as the explicit argument `ts`. -/
def generate_report (ts : String) (m : Metrics) : String :=
  let report := "\n=== SYSTEM HEALTH REPORT ===\nTimestamp: " ++ ts
    ++ "\n\nCPU Usage: " ++ fmt1 m.cpu_percent ++ "%\nMemory Usage: "
    ++ fmt1 m.memory.percent ++ "% (" ++ pyFloatStr m.memory.used ++ " GB / "
    ++ pyFloatStr m.memory.total ++ " GB)\n\nDisk Usage:"
  let report := m.disk.foldl (fun r p => r ++ diskReportLine p) report
  let report := report ++ "\n\nRunning Processes: " ++ toString m.process_count
  let report := report ++ "\n\nTop 5 Processes by CPU:"
  let report := m.top_processes.foldl (fun r p => r ++ procReportLine p) report
  report

/-- `monitor_once` (lines 143-162), with the collected metrics and the
formatting-time clock reading as inputs (collection is the injected
capability): evaluate the thresholds, dispatch each alert through
`send_alert`, build the report, log completion; return
`(metrics, alerts, report)` and the emitted effects. -/
def monitor_once (ts : String) (th : List (String × PyNum)) (m : Metrics) :
    (Metrics × List String × String) × List Effect :=
  let alerts := check_thresholds th m
  let alertEffects := alerts.flatMap (fun alert => send_alert "THRESHOLD_EXCEEDED" alert)
  let report := generate_report ts m
  ((m, alerts, report), alertEffects ++ [Effect.infoLog "System health check completed"])

/-- One threshold check as the evaluator performs it: whether it fires and
the message it would emit.  Spec-side view used to state the fixed
evaluation order of `check_thresholds`. -/
structure CheckItem where
  fires : Bool
  msg : String
deriving DecidableEq, Repr

/-- The checks of `check_thresholds` in their fixed source order:
CPU, memory, one per disk mount in snapshot map order, process count. -/
def orderedChecks (th : List (String × PyNum)) (m : Metrics) : List CheckItem :=
  [⟨decide (m.cpu_percent > (dget th "cpu_percent").toRat), cpuAlertMsg th m⟩,
   ⟨decide (m.memory.percent > (dget th "memory_percent").toRat), memAlertMsg th m⟩]
  ++ m.disk.map (fun p =>
      ⟨decide (p.2.percent > (dget th "disk_percent").toRat), diskAlertMsg th p⟩)
  ++ [⟨decide ((m.process_count : Rat) > (dget th "max_processes").toRat), procAlertMsg th m⟩]

/-- Everything `generate_report` emits after the timestamp: a function of
the snapshot alone.  Spec-side view used to isolate the wall-clock
dependence of the report. -/
def reportRest (m : Metrics) : String :=
  let r := "\n\nCPU Usage: " ++ fmt1 m.cpu_percent ++ "%\nMemory Usage: "
    ++ fmt1 m.memory.percent ++ "% (" ++ pyFloatStr m.memory.used ++ " GB / "
    ++ pyFloatStr m.memory.total ++ " GB)\n\nDisk Usage:"
  let r := m.disk.foldl (fun r p => r ++ diskReportLine p) r
  let r := r ++ "\n\nRunning Processes: " ++ toString m.process_count
  let r := r ++ "\n\nTop 5 Processes by CPU:"
  m.top_processes.foldl (fun r p => r ++ procReportLine p) r

/-- Substring test: `pat` occurs contiguously in `s` (Python `in`). -/
def strContains (s pat : String) : Bool :=
  (List.range (s.data.length + 1)).any (fun i => pat.data.isPrefixOf (s.data.drop i))

/-- The payload of a warning-level log record, if the effect is one. -/
def warnOf : Effect → Option String
  | .warnLog s => some s
  | _ => none

/-- The threshold keys `check_thresholds` reads. -/
def recognizedKeys : List String :=
  ["cpu_percent", "memory_percent", "disk_percent", "max_processes"]

/-- Scenario A snapshot: CPU at 95.0, every other metric below its default
threshold. -/
def scenarioA : Metrics :=
  { cpu_percent := 95
    memory := ⟨50, 8, 16, 8⟩
    disk := [("/", ⟨50, 100, 200, 100⟩)]
    process_count := 100
    top_processes := [] }

/-- A fixed snapshot used to exhibit the wall-clock dependence of
`generate_report`. -/
def demoMetrics : Metrics :=
  { cpu_percent := 10
    memory := ⟨20, 1, 2, 1⟩
    disk := []
    process_count := 3
    top_processes := [] }

/-- A partition enumeration with one readable mount and one whose usage
read raises `PermissionError`. -/
def demoParts : List Partition :=
  [⟨"/", some ⟨50, 100, 50⟩⟩, ⟨"/priv", none⟩]

/-- Appending through a guarded `foldl`-accumulated loop equals the initial
accumulator followed by the guarded contributions in iteration order. -/
theorem foldl_alert_append {α : Type} (cond : α → Prop) [DecidablePred cond]
    (f : α → String) (l : List α) (acc : List String) :
    l.foldl (fun a p => if cond p then a ++ [f p] else a) acc
      = acc ++ l.flatMap (fun p => if cond p then [f p] else []) := by
  induction l generalizing acc with
  | nil => simp
  | cons x xs ih =>
    by_cases h : cond x <;>
      simp [h, ih, List.append_assoc]

/-- `check_thresholds` decomposed into its four sequential contributions. -/
theorem check_thresholds_decomp (th : List (String × PyNum)) (m : Metrics) :
    check_thresholds th m =
      (if m.cpu_percent > (dget th "cpu_percent").toRat then [cpuAlertMsg th m] else [])
      ++ ((if m.memory.percent > (dget th "memory_percent").toRat then [memAlertMsg th m] else [])
      ++ (m.disk.flatMap (fun p =>
            if p.2.percent > (dget th "disk_percent").toRat then [diskAlertMsg th p] else [])
      ++ (if (m.process_count : Rat) > (dget th "max_processes").toRat
            then [procAlertMsg th m] else []))) := by
  simp only [check_thresholds]
  rw [foldl_alert_append]
  by_cases h1 : m.cpu_percent > (dget th "cpu_percent").toRat <;>
    by_cases h2 : m.memory.percent > (dget th "memory_percent").toRat <;>
      by_cases h4 : (m.process_count : Rat) > (dget th "max_processes").toRat <;>
        simp [h1, h2, h4, List.append_assoc]

/-- C1: for every snapshot and every threshold dict, `check_thresholds`
contains the alert of a metric iff that metric strictly exceeds its
threshold — the result is exactly the concatenation of one guarded
singleton per metric (CPU, memory, each disk mount, process count), each
guard being the strict comparison `>`; in particular a value equal to its
threshold contributes nothing. -/
theorem check_thresholds_alert_iff (th : List (String × PyNum)) (m : Metrics) :
    check_thresholds th m =
      (if m.cpu_percent > (dget th "cpu_percent").toRat then [cpuAlertMsg th m] else [])
      ++ ((if m.memory.percent > (dget th "memory_percent").toRat then [memAlertMsg th m] else [])
      ++ (m.disk.flatMap (fun p =>
            if p.2.percent > (dget th "disk_percent").toRat then [diskAlertMsg th p] else [])
      ++ (if (m.process_count : Rat) > (dget th "max_processes").toRat
            then [procAlertMsg th m] else []))) :=
  check_thresholds_decomp th m

/-- Filtering the fired checks out of a mapped check list equals the guarded
flatMap over the underlying list. -/
theorem filter_map_fires {α : Type} (cond : α → Prop) [DecidablePred cond]
    (msg : α → String) (l : List α) :
    (((l.map (fun p => CheckItem.mk (decide (cond p)) (msg p))).filter
        (fun c => c.fires)).map (fun c => c.msg))
      = l.flatMap (fun p => if cond p then [msg p] else []) := by
  induction l with
  | nil => rfl
  | cons x xs ih =>
    by_cases h : cond x <;> simp [h, ih, List.filter_cons]

/-- C2: the alert list of `check_thresholds` is the message list of the
fired checks taken from the fixed ordered check sequence — CPU first, then
memory, then one check per disk mount in snapshot map order, then process
count — whatever subset fires. -/
theorem check_thresholds_ordered (th : List (String × PyNum)) (m : Metrics) :
    check_thresholds th m
      = ((orderedChecks th m).filter (fun c => c.fires)).map (fun c => c.msg) := by
  rw [check_thresholds_decomp]
  unfold orderedChecks
  rw [List.filter_append, List.filter_append, List.map_append, List.map_append,
    filter_map_fires (fun p => p.2.percent > (dget th "disk_percent").toRat)
      (fun p => diskAlertMsg th p)]
  by_cases h1 : m.cpu_percent > (dget th "cpu_percent").toRat <;>
    by_cases h2 : m.memory.percent > (dget th "memory_percent").toRat <;>
      by_cases h4 : (m.process_count : Rat) > (dget th "max_processes").toRat <;>
        simp [h1, h2, h4, List.filter_cons, List.append_assoc]

/-- C8: on the scenario-A snapshot (CPU 95.0, everything else healthy)
under the default thresholds, `check_thresholds` returns exactly one
alert, whose text contains the current value rendered `95.0` and the
threshold rendered `80.0`. -/
theorem scenarioA_single_cpu_alert :
    check_thresholds defaultThresholds scenarioA
        = ["High CPU usage: 95.0% (threshold: 80.0%)"]
      ∧ strContains "High CPU usage: 95.0% (threshold: 80.0%)" "95.0" = true
      ∧ strContains "High CPU usage: 95.0% (threshold: 80.0%)" "80.0" = true :=
  ⟨by with_unfolding_all decide, by decide, by decide⟩

/-- A string prefix of the accumulator passes unchanged through an
append-accumulating `foldl`. -/
theorem foldl_str_pull {α : Type} (g : α → String) (l : List α) (a b : String) :
    l.foldl (fun r p => r ++ g p) (a ++ b) = a ++ l.foldl (fun r p => r ++ g p) b := by
  induction l generalizing b with
  | nil => rfl
  | cons x xs ih =>
    simp only [List.foldl_cons, String.append_assoc, ih]

/-- C3 amended: the report text is a function of the snapshot and of the
wall clock read at formatting time, and the clock reading appears only in
the timestamp slot of the header — everything after it (`reportRest`) is
determined by the snapshot alone.  Two calls with equal snapshot and equal
clock reading are byte-identical. -/
theorem generate_report_clock_split (ts : String) (m : Metrics) :
    generate_report ts m
      = "\n=== SYSTEM HEALTH REPORT ===\nTimestamp: " ++ ts ++ reportRest m := by
  simp only [generate_report, reportRest, String.append_assoc, foldl_str_pull]

/-- C3 counterexample: on one fixed snapshot, two calls of
`generate_report` with different wall-clock readings give different report
text, so the report is not a function of the snapshot alone. -/
theorem generate_report_not_snapshot_determined :
    generate_report "2024-01-01 00:00:00" demoMetrics
      ≠ generate_report "2024-01-01 00:00:01" demoMetrics := by
  with_unfolding_all decide

/-- Warning-level records among a dispatch sequence: one per alert, in
alert order, each framed as the `send_alert` template. -/
theorem warn_records_of_dispatch (t : String) (l : List String) (tail : List Effect)
    (htail : tail.filterMap warnOf = []) :
    (l.flatMap (fun alert => send_alert t alert) ++ tail).filterMap warnOf
      = l.map (fun alert => "🚨 ALERT [" ++ t ++ "]: " ++ alert) := by
  induction l with
  | nil => simpa using htail
  | cons x xs ih =>
    simpa [send_alert, warnOf, pyPrint] using ih

/-- C9: in a cycle, `monitor_once` dispatches each alert of the evaluator
exactly once through `send_alert`: its effect trace is precisely the
concatenation of one `send_alert` emission per alert, in alert-list order,
followed by the completion log line; consequently the warning-level records
are in one-to-one order-preserving correspondence with the alert list — no
batching, deduplication, or suppression. -/
theorem monitor_once_dispatches_each_alert (ts : String)
    (th : List (String × PyNum)) (m : Metrics) :
    (monitor_once ts th m).2
        = (check_thresholds th m).flatMap (fun alert => send_alert "THRESHOLD_EXCEEDED" alert)
          ++ [Effect.infoLog "System health check completed"]
      ∧ ((monitor_once ts th m).2.filterMap warnOf
        = (check_thresholds th m).map
            (fun alert => "🚨 ALERT [THRESHOLD_EXCEEDED]: " ++ alert)) := by
  refine ⟨rfl, ?_⟩
  exact warn_records_of_dispatch "THRESHOLD_EXCEEDED" (check_thresholds th m)
    [Effect.infoLog "System health check completed"] rfl

/-- The disk collection loop is the `filterMap` of its per-partition
result: a readable partition contributes its stats entry, an unreadable
one nothing. -/
theorem get_disk_usage_eq_filterMap (parts : List Partition) :
    get_disk_usage parts = parts.filterMap (fun p => p.usage.map (fun u =>
      (p.mountpoint,
        ({ percent := ((u.used : Rat) / (u.total : Rat)) * 100
           used := bytes_to_gb (u.used : Rat)
           total := bytes_to_gb (u.total : Rat)
           free := bytes_to_gb (u.free : Rat) } : DiskInfo)))) := by
  suffices h : ∀ (l : List Partition) (acc : List (String × DiskInfo)),
      l.foldl (fun disk_info p =>
        match p.usage with
        | some u =>
          disk_info ++ [(p.mountpoint,
            { percent := ((u.used : Rat) / (u.total : Rat)) * 100
              used := bytes_to_gb (u.used : Rat)
              total := bytes_to_gb (u.total : Rat)
              free := bytes_to_gb (u.free : Rat) })]
        | none => disk_info) acc
        = acc ++ l.filterMap (fun p => p.usage.map (fun u =>
            (p.mountpoint,
              { percent := ((u.used : Rat) / (u.total : Rat)) * 100
                used := bytes_to_gb (u.used : Rat)
                total := bytes_to_gb (u.total : Rat)
                free := bytes_to_gb (u.free : Rat) }))) by
    simpa [get_disk_usage] using h parts []
  intro l
  induction l with
  | nil => simp
  | cons x xs ih =>
    intro acc
    cases hu : x.usage <;> simp [hu, ih, List.append_assoc]

/-- C6: every readable partition appears in the `get_disk_usage` map with
`percent = used / total * 100`, and a mount point all of whose partitions
raised an access error is absent from the map entirely — collection never
aborts on an unreadable partition (the function is total over every
enumeration). -/
theorem get_disk_usage_spec (parts : List Partition) :
    (∀ p ∈ parts, ∀ u : Usage, p.usage = some u →
        ∃ d : DiskInfo, (p.mountpoint, d) ∈ get_disk_usage parts
          ∧ d.percent = ((u.used : Rat) / (u.total : Rat)) * 100)
      ∧ ∀ mnt : String, (∀ p ∈ parts, p.mountpoint = mnt → p.usage = none) →
          ¬ ∃ d : DiskInfo, (mnt, d) ∈ get_disk_usage parts := by
  constructor
  · intro p hp u hu
    refine ⟨{ percent := ((u.used : Rat) / (u.total : Rat)) * 100
              used := bytes_to_gb (u.used : Rat)
              total := bytes_to_gb (u.total : Rat)
              free := bytes_to_gb (u.free : Rat) }, ?_, rfl⟩
    rw [get_disk_usage_eq_filterMap, List.mem_filterMap]
    exact ⟨p, hp, by rw [hu]; rfl⟩
  · intro mnt hall ⟨d, hd⟩
    rw [get_disk_usage_eq_filterMap, List.mem_filterMap] at hd
    obtain ⟨p, hp, hfp⟩ := hd
    cases hu : p.usage with
    | none => rw [hu] at hfp; exact Option.noConfusion hfp
    | some u =>
      rw [hu] at hfp
      have hmnt : p.mountpoint = mnt := congrArg Prod.fst (Option.some.inj hfp)
      rw [hall p hp hmnt] at hu
      exact Option.noConfusion hu

/-- C6 witness: on a concrete enumeration with one readable mount and one
mount whose read raises `PermissionError`, the readable mount is present
with the exact percent and the unreadable one is absent. -/
theorem get_disk_usage_spec_witness :
    (∃ d : DiskInfo, ("/", d) ∈ get_disk_usage demoParts
        ∧ d.percent = (((50 : Nat) : Rat) / ((100 : Nat) : Rat)) * 100)
      ∧ ¬ ∃ d : DiskInfo, ("/priv", d) ∈ get_disk_usage demoParts :=
  ⟨(get_disk_usage_spec demoParts).1 ⟨"/", some ⟨50, 100, 50⟩⟩ (by decide) ⟨50, 100, 50⟩ rfl,
   (get_disk_usage_spec demoParts).2 "/priv" (by decide)⟩

/-- Cons step of `dlookup`. -/
theorem dlookup_cons (p : String × PyNum) (l : List (String × PyNum)) (k : String) :
    dlookup (p :: l) k = if p.1 == k then some p.2 else dlookup l k := by
  simp only [dlookup, List.find?_cons]
  cases h : p.1 == k <;> simp [h]

/-- `dlookup` distributes over append, first list winning. -/
theorem dlookup_append (a b : List (String × PyNum)) (k : String) :
    dlookup (a ++ b) k = (dlookup a k <|> dlookup b k) := by
  induction a with
  | nil => simp [dlookup]
  | cons p rest ih =>
    rw [List.cons_append, dlookup_cons, dlookup_cons]
    by_cases h : p.1 == k <;> simp [h, ih]

/-- Lookup in the overlay-mapped base of `dictUpdate`: present base keys
take the overlay value when the overlay has one, their own otherwise; keys
absent from the base stay absent. -/
theorem dlookup_map_overlay (base ov : List (String × PyNum)) (k : String) :
    dlookup (base.map (fun p => match dlookup ov p.1 with
        | some v => (p.1, v)
        | none => p)) k
      = match dlookup base k with
        | some v => some ((dlookup ov k).getD v)
        | none => none := by
  induction base with
  | nil => rfl
  | cons p rest ih =>
    rw [List.map_cons, dlookup_cons, dlookup_cons]
    by_cases hk : p.1 == k
    · have hk' : p.1 = k := by simpa using hk
      cases hov : dlookup ov p.1 <;> simp [hk, hk', hov] <;> rw [← hk', hov] <;> rfl
    · cases hov : dlookup ov p.1 <;> simp [hk, ih]

/-- Keys the base does not hold pass through the unrecognized-key filter of
`dictUpdate` untouched. -/
theorem dlookup_filter_new (base ov : List (String × PyNum)) (k : String)
    (h : dlookup base k = none) :
    dlookup (ov.filter (fun p => dlookup base p.1 = none)) k = dlookup ov k := by
  induction ov with
  | nil => rfl
  | cons q rest ih =>
    by_cases hq : q.1 == k
    · have hq' : q.1 = k := by simpa using hq
      rw [List.filter_cons, dlookup_cons]
      simp only [hq', h, decide_True]
      simp [dlookup_cons, hq]
    · rw [List.filter_cons]
      cases hb : decide (dlookup base q.1 = none) <;>
        simp [hb, dlookup_cons, hq, ih]

/-- Extensional content of `dict.update`: a key resolves to the overlay's
value when the overlay holds it, to the base's otherwise. -/
theorem dlookup_dictUpdate (base ov : List (String × PyNum)) (k : String) :
    dlookup (dictUpdate base ov) k = (dlookup ov k <|> dlookup base k) := by
  unfold dictUpdate
  rw [dlookup_append, dlookup_map_overlay]
  cases hb : dlookup base k with
  | some v =>
    cases ho : dlookup ov k <;> simp [ho]
  | none =>
    rw [dlookup_filter_new base ov k hb]
    cases ho : dlookup ov k <;> simp [ho]

/-- C4: loading thresholds overlays exactly the keys present in the
configuration's thresholds object onto the defaults — any key resolves to
the configured value when present and to the default otherwise; a missing
configuration file leaves the dict exactly at the defaults, whose four
entries are cpu 80.0, memory 85.0, disk 90.0, max processes 300, and
loading is total (startup cannot fail on a missing file). -/
theorem initThresholds_overlay :
    (∀ (ov : List (String × PyNum)) (k : String),
        dlookup (initThresholds (some ⟨some ov⟩)) k
          = (dlookup ov k <|> dlookup defaultThresholds k))
      ∧ initThresholds none = defaultThresholds
      ∧ dget defaultThresholds "cpu_percent" = PyNum.float 80
      ∧ dget defaultThresholds "memory_percent" = PyNum.float 85
      ∧ dget defaultThresholds "disk_percent" = PyNum.float 90
      ∧ dget defaultThresholds "max_processes" = PyNum.int 300 :=
  ⟨fun ov k => by simpa [initThresholds] using dlookup_dictUpdate defaultThresholds ov k,
   rfl, by decide, by decide, by decide, by decide⟩

/-- `check_thresholds` reads its dict only at the four recognized keys. -/
theorem check_thresholds_congr (th₁ th₂ : List (String × PyNum)) (m : Metrics)
    (h1 : dget th₁ "cpu_percent" = dget th₂ "cpu_percent")
    (h2 : dget th₁ "memory_percent" = dget th₂ "memory_percent")
    (h3 : dget th₁ "disk_percent" = dget th₂ "disk_percent")
    (h4 : dget th₁ "max_processes" = dget th₂ "max_processes") :
    check_thresholds th₁ m = check_thresholds th₂ m := by
  simp only [check_thresholds, cpuAlertMsg, memAlertMsg, diskAlertMsg, procAlertMsg,
    h1, h2, h3, h4]

/-- A key satisfying the kept-predicate looks up the same in the filtered
list. -/
theorem dlookup_filter_kept (pred : String → Bool) (ov : List (String × PyNum))
    (k : String) (hk : pred k = true) :
    dlookup (ov.filter (fun p => pred p.1)) k = dlookup ov k := by
  induction ov with
  | nil => rfl
  | cons q rest ih =>
    by_cases hq : q.1 == k
    · have hq' : q.1 = k := by simpa using hq
      rw [List.filter_cons]
      simp only [hq', hk]
      simp [dlookup_cons, hq]
    · rw [List.filter_cons]
      cases hp : pred q.1 <;> simp [hp, dlookup_cons, hq, ih]

/-- C10: a configuration whose thresholds object holds keys beyond the four
recognized ones still loads (loading is total, no validation), the extra
entries are carried into the threshold dict verbatim as a suffix, and the
evaluator's output on every snapshot is identical to its output with the
unrecognized keys removed — `check_thresholds` reads only the four
recognized keys. -/
theorem check_thresholds_ignores_extra_keys (ov : List (String × PyNum)) (m : Metrics) :
    check_thresholds (initThresholds (some ⟨some ov⟩)) m
        = check_thresholds
            (initThresholds (some ⟨some (ov.filter (fun p => recognizedKeys.contains p.1))⟩)) m
      ∧ ov.filter (fun p => dlookup defaultThresholds p.1 = none)
          <:+ initThresholds (some ⟨some ov⟩) := by
  constructor
  · have key : ∀ k : String, recognizedKeys.contains k = true →
        dget (initThresholds (some ⟨some ov⟩)) k
          = dget (initThresholds (some ⟨some (ov.filter (fun p => recognizedKeys.contains p.1))⟩)) k := by
      intro k hk
      unfold dget
      simp only [initThresholds, Option.getD]
      rw [dlookup_dictUpdate, dlookup_dictUpdate,
        dlookup_filter_kept (fun s => recognizedKeys.contains s) ov k hk]
    exact check_thresholds_congr _ _ m
      (key "cpu_percent" (by decide)) (key "memory_percent" (by decide))
      (key "disk_percent" (by decide)) (key "max_processes" (by decide))
  · exact ⟨defaultThresholds.map (fun p => match dlookup ov p.1 with
      | some v => (p.1, v)
      | none => p), rfl⟩

/-- The readable-entry collection loop of `get_top_processes` keeps exactly
the successfully read entries, in enumeration order. -/
theorem foldl_readable (l : List (Option ProcInfo)) (acc : List ProcInfo) :
    l.foldl (fun ps po => match po with
      | some p => ps ++ [p]
      | none => ps) acc = acc ++ l.filterMap id := by
  induction l generalizing acc with
  | nil => simp
  | cons x xs ih =>
    cases x <;> simp [ih, List.append_assoc]

/-- The descending comparator is transitive. -/
theorem topSortLe_trans (a b c : ProcInfo)
    (hab : topSortLe a b = true) (hbc : topSortLe b c = true) :
    topSortLe a c = true := by
  simp only [topSortLe, decide_eq_true_eq] at hab hbc ⊢
  exact le_trans hbc hab

/-- The descending comparator is total. -/
theorem topSortLe_total (a b : ProcInfo) : (topSortLe a b || topSortLe b a) = true := by
  simp only [topSortLe, Bool.or_eq_true, decide_eq_true_eq]
  exact le_total (procKey b) (procKey a)

/-- Stability of the descending sort: the sorted list restricted to any one
key value is the input restricted to that key value, in input order. -/
theorem mergeSort_filter_key (ps : List ProcInfo) (k : Rat) :
    (ps.mergeSort topSortLe).filter (fun p => decide (procKey p = k))
      = ps.filter (fun p => decide (procKey p = k)) := by
  have hA_pair : (ps.filter (fun p => decide (procKey p = k))).Pairwise
      (fun a b => topSortLe a b = true) := by
    apply List.pairwise_of_forall_mem_list
    intro a ha b hb
    have hak : procKey a = k := of_decide_eq_true (List.mem_filter.1 ha).2
    have hbk : procKey b = k := of_decide_eq_true (List.mem_filter.1 hb).2
    simp [topSortLe, hak, hbk]
  have hsub : List.Sublist (ps.filter (fun p => decide (procKey p = k)))
      (ps.mergeSort topSortLe) :=
    List.sublist_mergeSort topSortLe_trans topSortLe_total hA_pair (List.filter_sublist ps)
  have hsub2 := hsub.filter (fun p => decide (procKey p = k))
  rw [List.filter_eq_self.2
    (fun a ha => (List.mem_filter.1 ha).2)] at hsub2
  have hlen : ((ps.mergeSort topSortLe).filter (fun p => decide (procKey p = k))).length
      = (ps.filter (fun p => decide (procKey p = k))).length :=
    ((List.mergeSort_perm ps topSortLe).filter (fun p => decide (procKey p = k))).length_eq
  exact (hsub2.eq_of_length hlen.symm).symm

/-- C5: `get_top_processes` returns at most `limit` entries, sorted
descending by `cpu_percent` with an absent reading treated as 0, and among
entries of equal key the output preserves the original enumeration order of
the readable processes (stable sort): its restriction to any key value is a
prefix of the input's restriction to that key value. -/
theorem get_top_processes_spec (procIter : List (Option ProcInfo)) (limit : Nat) :
    (get_top_processes procIter limit).length ≤ limit
      ∧ (get_top_processes procIter limit).Pairwise (fun a b => procKey b ≤ procKey a)
      ∧ ∀ k : Rat,
          (get_top_processes procIter limit).filter (fun p => decide (procKey p = k))
            <+: (procIter.filterMap id).filter (fun p => decide (procKey p = k)) := by
  have hget : get_top_processes procIter limit
      = ((procIter.filterMap id).mergeSort topSortLe).take limit := by
    simp [get_top_processes, foldl_readable]
  refine ⟨?_, ?_, ?_⟩
  · rw [hget]; exact List.length_take_le _ _
  · rw [hget]
    have hs := List.sorted_mergeSort topSortLe_trans topSortLe_total
      (procIter.filterMap id)
    exact (List.Pairwise.sublist (List.take_sublist limit _) hs).imp
      (fun h => by simpa [topSortLe] using h)
  · intro k
    rw [hget]
    refine ⟨(((procIter.filterMap id).mergeSort topSortLe).drop limit).filter
      (fun p => decide (procKey p = k)), ?_⟩
    rw [← List.filter_append, List.take_append_drop, mergeSort_filter_key]
